import Mathlib

/-!
Shallow embedding of `scripts/local-relay/watcher-github.js` (Agent-bridge):
a dual-channel watch-and-dedup engine.  The local channel stats a marker
file and compares its modification time against a per-signal
`lastHandled` timestamp; the remote channel polls a GitHub contents API
and compares an opaque sha fingerprint against a per-signal
`lastGitHubSha` record.  Every effectful step is modelled as a pure
function from its inputs (stat/read/fetch outcomes and the per-signal
stored marker) to the ordered list of actions the source performs, so
that ordering properties (update-before-dispatch) and counting
properties (exactly-once dispatch) are statable.
-/

/-- Configuration constant `debounceMs = 750` from the source. -/
def debounceMs : Nat := 750

/-- Configuration constant `localPollMs = 5000` from the source. -/
def localPollMs : Nat := 5000

/-- Configuration constant `POLL_GITHUB_MS = 10000` from the source. -/
def POLL_GITHUB_MS : Nat := 10000

/-- An entry of the `TARGETS` registry: `{ name, agent, notifyFor }`. -/
structure Target where
  name : String
  agent : String
  notifyFor : String
deriving DecidableEq

/-- The fixed signal registry `TARGETS` from the source. -/
def TARGETS : List Target :=
  [⟨"notify-cascade", "Cascade", "Replit"⟩,
   ⟨"notify-replit", "Replit", "Cascade"⟩]

/-- Outcome of `fs.stat(filePath)`: the file is absent (`ENOENT`), the
stat throws some other error, or it succeeds with a modification time
`mtimeMs` (modelled as a natural number of milliseconds). -/
inductive StatResult where
  | enoent : StatResult
  | statError (msg : String) : StatResult
  | ok (mtimeMs : Nat) : StatResult
deriving DecidableEq

/-- Outcome of `fs.readFile(filePath, "utf-8")`: the raw text, or a
thrown error (swallowed by the inner `catch {}` in the source). -/
inductive ReadResult where
  | ok (content : String) : ReadResult
  | err : ReadResult
deriving DecidableEq

/-- One observable action of a local-channel check, in source order:
`lastHandled.set` (the marker update), a `triggerNotification` call
(the dispatch, with the originating agent and the context text), or a
`console.error` log from the outer catch. -/
inductive LAction where
  | setLast (t : Nat) : LAction
  | dispatch (fromAgent : String) (context : String) : LAction
  | logError (msg : String) : LAction
deriving DecidableEq

/-- The context text a local check passes to the dispatch: the trimmed
file text on a successful read, the empty string on a read failure
(the inner `catch {}` swallows the error and leaves `context = ""`). -/
def readContext : ReadResult → String
  | .ok c => c.trim
  | .err => ""

/-- `handleLocalFlag(target)` as a pure trace: given the stat outcome,
the read outcome and the stored `lastHandled` entry for this signal
(absent at process start), the ordered list of actions the source
performs.  Mirrors the source line by line: `ENOENT` returns silently;
another stat error is logged; a modification time not strictly greater
than the stored value (defaulted to 0 by `|| 0`) returns; otherwise the
marker is set first, the content is read best-effort (a read failure
yields the empty context) and trimmed, and the notification fires. -/
def handleLocalFlag (target : Target) (st : StatResult) (rd : ReadResult)
    (lastHandled : Option Nat) : List LAction :=
  match st with
  | .enoent => []
  | .statError msg => [.logError msg]
  | .ok mtimeMs =>
    let prev := lastHandled.getD 0
    if mtimeMs ≤ prev then []
    else
      let context := readContext rd
      [.setLast mtimeMs, .dispatch target.agent context]

/-- Replaying a local trace onto the stored `lastHandled` entry. -/
def applyLocal (s : Option Nat) : List LAction → Option Nat
  | [] => s
  | .setLast t :: rest => applyLocal (some t) rest
  | _ :: rest => applyLocal s rest

/-- Whether a local action is a notification dispatch. -/
def LAction.isDispatch : LAction → Bool
  | .dispatch _ _ => true
  | _ => false

/-- Whether a local action is an error log. -/
def LAction.isLog : LAction → Bool
  | .logError _ => true
  | _ => false

/-- Number of notification dispatches in a local trace. -/
def countDispatchL (tr : List LAction) : Nat :=
  (tr.filter LAction.isDispatch).length

/-- Number of error logs in a local trace. -/
def countLogL (tr : List LAction) : Nat :=
  (tr.filter LAction.isLog).length

/-- The context texts of the dispatches of a local trace, in order. -/
def dispatchContextsL (tr : List LAction) : List String :=
  tr.filterMap fun a => match a with
    | .dispatch _ c => some c
    | _ => none

/-- The prompt string composed by `triggerNotification(fromAgent,
context)`: the context clause is present exactly when `context` is
truthy, i.e. a non-empty string. -/
def triggerNotificationPrompt (fromAgent : String) (context : String) : String :=
  if context = "" then
    fromAgent ++ " has a message for you. Check .ai/dialogue.json and .handoff/collab.json, then respond to continue the conversation."
  else
    fromAgent ++ " has a message for you. Check .ai/dialogue.json and .handoff/collab.json, then respond to continue the conversation. Context: " ++ context

/-- The value of one base64 alphabet character, `none` on any other
character (dropped, as Node's lenient base64 parsing drops them). -/
def b64Val (c : Char) : Option Nat :=
  if 'A' ≤ c ∧ c ≤ 'Z' then some (c.toNat - 65)
  else if 'a' ≤ c ∧ c ≤ 'z' then some (c.toNat - 97 + 26)
  else if '0' ≤ c ∧ c ≤ '9' then some (c.toNat - 48 + 52)
  else if c = '+' then some 62
  else if c = '/' then some 63
  else none

/-- Reassembling base64 sextets into bytes, four sextets to three
bytes, with the usual truncated final group. -/
def b64Bytes : List Nat → List Nat
  | a :: b :: c :: d :: rest =>
    (a * 4 + b / 16) :: ((b % 16) * 16 + c / 4) :: ((c % 4) * 64 + d) :: b64Bytes rest
  | [a, b] => [a * 4 + b / 16]
  | [a, b, c] => [a * 4 + b / 16, (b % 16) * 16 + c / 4]
  | _ => []

/-- The U+FFFD replacement character used for malformed UTF-8. -/
def replChar : Char := Char.ofNat 0xFFFD

/-- A code point as a `Char`, replacing invalid code points. -/
def chr (n : Nat) : Char :=
  if h : n.isValidChar then Char.ofNatAux n h else replChar

/-- Whether a byte is a UTF-8 continuation byte. -/
def isCont (b : Nat) : Bool := 0x80 ≤ b ∧ b < 0xC0

/-- Decoding a byte sequence as UTF-8, with U+FFFD on malformed input
(the behaviour of `Buffer.toString("utf-8")`). -/
def utf8Decode : List Nat → List Char
  | [] => []
  | b :: rest =>
    if b < 0x80 then chr b :: utf8Decode rest
    else if b < 0xC2 then replChar :: utf8Decode rest
    else if b < 0xE0 then
      match rest with
      | b2 :: rest2 =>
        if isCont b2 then chr ((b - 0xC0) * 64 + (b2 - 0x80)) :: utf8Decode rest2
        else replChar :: utf8Decode (b2 :: rest2)
      | [] => [replChar]
    else if b < 0xF0 then
      match rest with
      | b2 :: b3 :: rest3 =>
        if isCont b2 && isCont b3 then
          chr ((b - 0xE0) * 4096 + (b2 - 0x80) * 64 + (b3 - 0x80)) :: utf8Decode rest3
        else replChar :: utf8Decode (b2 :: b3 :: rest3)
      | [b2] => if isCont b2 then [replChar] else replChar :: utf8Decode [b2]
      | [] => [replChar]
    else if b < 0xF5 then
      match rest with
      | b2 :: b3 :: b4 :: rest4 =>
        if isCont b2 && isCont b3 && isCont b4 then
          chr ((b - 0xF0) * 262144 + (b2 - 0x80) * 4096 + (b3 - 0x80) * 64 + (b4 - 0x80))
            :: utf8Decode rest4
        else replChar :: utf8Decode (b2 :: b3 :: b4 :: rest4)
      | [b2, b3] =>
        if isCont b2 && isCont b3 then [replChar] else replChar :: utf8Decode [b2, b3]
      | [b2] => if isCont b2 then [replChar] else replChar :: utf8Decode [b2]
      | [] => [replChar]
    else replChar :: utf8Decode rest
termination_by l => l.length
decreasing_by all_goals (simp <;> omega)

/-- `Buffer.from(s, "base64").toString("utf-8")` as a pure function. -/
def base64Decode (s : String) : String :=
  ⟨utf8Decode (b64Bytes (s.data.filterMap b64Val))⟩

/-- The record `fetchGitHubFile` yields on success: the sha fingerprint
and the decoded, trimmed content. -/
structure FileData where
  sha : String
  content : String
deriving DecidableEq

/-- What the `fetch` of the GitHub contents API produced before
`fetchGitHubFile` interprets it: a thrown error (network failure or a
JSON parse failure), or a response with its `ok` status and the parsed
body's `sha` and optional base64 `content` fields. -/
inductive FetchOutcome where
  | fetchFailed : FetchOutcome
  | response (ok : Bool) (sha : String) (content : Option String) : FetchOutcome
deriving DecidableEq

/-- `fetchGitHubFile` as a pure function of the fetch outcome: `none`
on a thrown error or a non-ok status, otherwise the sha together with
the base64-decoded, trimmed content (empty when the `content` field is
absent). -/
def fetchGitHubFile : FetchOutcome → Option FileData
  | .fetchFailed => none
  | .response ok sha content =>
    if ok then
      some ⟨sha, match content with
        | some c => (base64Decode c).trim
        | none => ""⟩
    else none

/-- One observable action of a remote-channel poll step for one signal,
in source order: the `lastGitHubSha.set` update, the first-detection
tracking log, the new-flag log, or a `triggerNotification` dispatch. -/
inductive GAction where
  | setSha (sha : String) : GAction
  | track (name sha : String) : GAction
  | logNew (name : String) : GAction
  | dispatch (fromAgent : String) (context : String) : GAction
deriving DecidableEq

/-- JavaScript falsiness of `lastGitHubSha.get(...)`: the entry is
absent (`undefined`) or holds the empty string. -/
def jsFalsyStr : Option String → Bool
  | none => true
  | some s => s = ""

/-- The body of `pollGitHub`'s loop for one target, as a pure trace:
given the stored sha record and the fetch result, the ordered actions.
A failed fetch is skipped; an unchanged sha (strict `===`) is skipped;
otherwise the record is overwritten first, and then a falsy prior
record (`!prevSha`) yields only the tracking log while a truthy prior
record yields the new-flag log and the dispatch with the fetched
content as context. -/
def pollGitHubStep (target : Target) (prevSha : Option String)
    (result : Option FileData) : List GAction :=
  match result with
  | none => []
  | some r =>
    if prevSha = some r.sha then []
    else if jsFalsyStr prevSha then
      [.setSha r.sha, .track target.name r.sha]
    else
      [.setSha r.sha, .logNew target.name, .dispatch target.agent r.content]

/-- Replaying a remote trace onto the stored sha record. -/
def applyG (s : Option String) : List GAction → Option String
  | [] => s
  | .setSha v :: rest => applyG (some v) rest
  | _ :: rest => applyG s rest

/-- Whether a remote action is a notification dispatch. -/
def GAction.isDispatch : GAction → Bool
  | .dispatch _ _ => true
  | _ => false

/-- Number of notification dispatches in a remote trace. -/
def countDispatchG (tr : List GAction) : Nat :=
  (tr.filter GAction.isDispatch).length

/-- The context texts of the dispatches of a remote trace, in order. -/
def dispatchContextsG (tr : List GAction) : List String :=
  tr.filterMap fun a => match a with
    | .dispatch _ c => some c
    | _ => none

/-- A sequence of poll ticks for one signal: each tick's fetch result
is processed by `pollGitHubStep`, threading the stored sha record and
concatenating the traces. -/
def pollRun (target : Target) (s : Option String) :
    List (Option FileData) → Option String × List GAction
  | [] => (s, [])
  | r :: rest =>
    let tr := pollGitHubStep target s r
    let out := pollRun target (applyG s tr) rest
    (out.1, tr ++ out.2)

/-- Whether the debounce timer scheduled by the file event at time `t`
is cancelled: `debounceLocalHandle` clears a pending timer, so the
timer set at `t` is cancelled exactly when another event arrives
strictly between `t` and `t + debounceMs` (otherwise it has already
fired). -/
def cancelledBy (ts : List Nat) (t : Nat) : Bool :=
  ts.any fun u => t < u && u < t + debounceMs

/-- The event times whose debounce timers actually fire a check, given
the full list of event times for one signal. -/
def firedChecks (ts : List Nat) : List Nat :=
  ts.filter fun t => !cancelledBy ts t

/-- The first entry of the `TARGETS` registry, used as a concrete
signal in closed statements. -/
def cascadeTarget : Target := ⟨"notify-cascade", "Cascade", "Replit"⟩

/-- Unfolding of a local check on a successful stat. -/
theorem handleLocalFlag_ok_eq (target : Target) (m : Nat) (rd : ReadResult)
    (s : Option Nat) :
    handleLocalFlag target (.ok m) rd s =
      if m ≤ s.getD 0 then []
      else [.setLast m, .dispatch target.agent (readContext rd)] := rfl

/-- C1: a local check dispatches iff the marker file exists with a
modification time strictly greater than the stored timestamp; a file
observed at modification time T with T above the stored value fires
exactly one notification, and any subsequent check (fallback-scan tick)
seeing an equal or decreased modification time fires zero more. -/
theorem local_dispatch_iff_newer_mtime (target : Target) (T : Nat) (c : String)
    (prev : Option Nat) (hT : prev.getD 0 < T) :
    (∀ st rd s, 0 < countDispatchL (handleLocalFlag target st rd s) ↔
      ∃ m, st = StatResult.ok m ∧ s.getD 0 < m) ∧
    countDispatchL (handleLocalFlag target (.ok T) (.ok c) prev) = 1 ∧
    (∀ T2 rd2, T2 ≤ T → countDispatchL (handleLocalFlag target (.ok T2) rd2
      (applyLocal prev (handleLocalFlag target (.ok T) (.ok c) prev))) = 0) := by
  have happ : applyLocal prev (handleLocalFlag target (.ok T) (.ok c) prev) = some T := by
    rw [handleLocalFlag_ok_eq, if_neg (by omega)]
    rfl
  refine ⟨?_, ?_, ?_⟩
  · intro st rd s
    cases st with
    | enoent => simp [handleLocalFlag, countDispatchL]
    | statError msg => simp [handleLocalFlag, countDispatchL, LAction.isDispatch]
    | ok m =>
      rw [handleLocalFlag_ok_eq]
      by_cases hm : m ≤ s.getD 0
      · rw [if_pos hm]
        simp only [countDispatchL, List.filter_nil, List.length_nil]
        simp only [StatResult.ok.injEq]
        constructor
        · omega
        · rintro ⟨m2, hm2, hlt⟩
          omega
      · rw [if_neg hm]
        simp only [countDispatchL, LAction.isDispatch, List.filter, List.length]
        simp only [StatResult.ok.injEq]
        constructor
        · intro _
          exact ⟨m, rfl, by omega⟩
        · intro _
          simp
  · rw [handleLocalFlag_ok_eq, if_neg (by omega)]
    rfl
  · intro T2 rd2 hle
    rw [happ, handleLocalFlag_ok_eq, if_pos (by simpa using hle)]
    rfl

/-- C1 witness at a concrete input. -/
theorem local_dispatch_iff_newer_mtime_witness :
    (none : Option Nat).getD 0 < 5 ∧
    ((∀ st rd s, 0 < countDispatchL (handleLocalFlag cascadeTarget st rd s) ↔
        ∃ m, st = StatResult.ok m ∧ s.getD 0 < m) ∧
      countDispatchL (handleLocalFlag cascadeTarget (.ok 5) (.ok "ping") none) = 1 ∧
      (∀ T2 rd2, T2 ≤ 5 → countDispatchL (handleLocalFlag cascadeTarget (.ok T2) rd2
        (applyLocal none (handleLocalFlag cascadeTarget (.ok 5) (.ok "ping") none))) = 0)) :=
  ⟨by decide, local_dispatch_iff_newer_mtime cascadeTarget 5 "ping" none (by decide)⟩

/-- C4: whenever a local check dispatches, the trace sets the stored
timestamp to the new modification time strictly before the dispatch,
and a second check on the updated store seeing the same stat outcome
dispatches nothing. -/
theorem local_update_before_dispatch (target : Target) (st : StatResult)
    (rd : ReadResult) (s : Option Nat)
    (h : 0 < countDispatchL (handleLocalFlag target st rd s)) :
    (∃ m, st = StatResult.ok m ∧
      handleLocalFlag target st rd s =
        [.setLast m, .dispatch target.agent (readContext rd)] ∧
      applyLocal s (handleLocalFlag target st rd s) = some m) ∧
    (∀ rd2, countDispatchL (handleLocalFlag target st rd2
      (applyLocal s (handleLocalFlag target st rd s))) = 0) := by
  cases st with
  | enoent => simp [handleLocalFlag, countDispatchL] at h
  | statError msg => simp [handleLocalFlag, countDispatchL, LAction.isDispatch] at h
  | ok m =>
    by_cases hm : m ≤ s.getD 0
    · rw [handleLocalFlag_ok_eq, if_pos hm] at h
      simp [countDispatchL] at h
    · have heq : handleLocalFlag target (.ok m) rd s =
          [.setLast m, .dispatch target.agent (readContext rd)] := by
        rw [handleLocalFlag_ok_eq, if_neg hm]
      have happ : applyLocal s (handleLocalFlag target (.ok m) rd s) = some m := by
        rw [heq]
        rfl
      refine ⟨⟨m, rfl, heq, happ⟩, ?_⟩
      intro rd2
      rw [happ, handleLocalFlag_ok_eq]
      simp [countDispatchL]

/-- C4 witness at a concrete input. -/
theorem local_update_before_dispatch_witness :
    0 < countDispatchL (handleLocalFlag cascadeTarget (.ok 5) (.ok "x") none) ∧
    ((∃ m, StatResult.ok 5 = StatResult.ok m ∧
      handleLocalFlag cascadeTarget (.ok 5) (.ok "x") none =
        [.setLast m, .dispatch cascadeTarget.agent (readContext (.ok "x"))] ∧
      applyLocal none (handleLocalFlag cascadeTarget (.ok 5) (.ok "x") none) = some m) ∧
    (∀ rd2, countDispatchL (handleLocalFlag cascadeTarget (.ok 5) rd2
      (applyLocal none (handleLocalFlag cascadeTarget (.ok 5) (.ok "x") none))) = 0)) :=
  ⟨by decide, local_update_before_dispatch cascadeTarget (.ok 5) (.ok "x") none (by decide)⟩

/-- C6: the stored timestamp starts unset and defaults to 0, so the
first marker file observed with a positive modification time is always
dispatched: no baseline suppression on the local channel. -/
theorem local_no_baseline_suppression (target : Target) (m : Nat) (c : String)
    (hm : 0 < m) :
    countDispatchL (handleLocalFlag target (.ok m) (.ok c) none) = 1 ∧
    dispatchContextsL (handleLocalFlag target (.ok m) (.ok c) none) = [c.trim] := by
  rw [handleLocalFlag_ok_eq, if_neg (by simp; omega)]
  exact ⟨rfl, rfl⟩

/-- C6 witness at a concrete input. -/
theorem local_no_baseline_suppression_witness :
    0 < 7 ∧
    (countDispatchL (handleLocalFlag cascadeTarget (.ok 7) (.ok " hi ") none) = 1 ∧
    dispatchContextsL (handleLocalFlag cascadeTarget (.ok 7) (.ok " hi ") none) =
      [(" hi " : String).trim]) :=
  ⟨by decide, local_no_baseline_suppression cascadeTarget 7 " hi " (by decide)⟩

/-- C7 counterexample: a local check whose stat succeeds (modification
time 5, store empty) but whose read fails dispatches with empty
context and logs nothing, so a read error is not logged. -/
theorem local_read_error_not_logged :
    handleLocalFlag cascadeTarget (.ok 5) .err none =
      [.setLast 5, .dispatch "Cascade" ""] ∧
    countLogL (handleLocalFlag cascadeTarget (.ok 5) .err none) = 0 ∧
    countDispatchL (handleLocalFlag cascadeTarget (.ok 5) .err none) = 1 := by
  decide

/-- C7 amended: a stat failure with ENOENT does nothing (no actions,
store unchanged); any other stat error is logged, does not dispatch
and leaves the store unchanged (and the check is a total function, so
no error halts the watcher); a read error is silently swallowed and
the dispatch proceeds with empty context, without a log. -/
theorem local_error_isolation (target : Target) (rd : ReadResult) (s : Option Nat)
    (msg : String) (m : Nat) (hm : s.getD 0 < m) :
    handleLocalFlag target .enoent rd s = [] ∧
    applyLocal s (handleLocalFlag target .enoent rd s) = s ∧
    handleLocalFlag target (.statError msg) rd s = [.logError msg] ∧
    applyLocal s (handleLocalFlag target (.statError msg) rd s) = s ∧
    countDispatchL (handleLocalFlag target (.statError msg) rd s) = 0 ∧
    handleLocalFlag target (.ok m) .err s = [.setLast m, .dispatch target.agent ""] ∧
    countLogL (handleLocalFlag target (.ok m) .err s) = 0 := by
  have heq : handleLocalFlag target (.ok m) .err s =
      [.setLast m, .dispatch target.agent ""] := by
    rw [handleLocalFlag_ok_eq, if_neg (by omega)]
    rfl
  exact ⟨rfl, rfl, rfl, rfl, rfl, heq, by rw [heq]; rfl⟩

/-- C7 witness at a concrete input. -/
theorem local_error_isolation_witness :
    (some 2 : Option Nat).getD 0 < 9 ∧
    (handleLocalFlag cascadeTarget .enoent .err (some 2) = [] ∧
    applyLocal (some 2) (handleLocalFlag cascadeTarget .enoent .err (some 2)) = some 2 ∧
    handleLocalFlag cascadeTarget (.statError "EACCES") .err (some 2) =
      [.logError "EACCES"] ∧
    applyLocal (some 2) (handleLocalFlag cascadeTarget (.statError "EACCES") .err (some 2)) =
      some 2 ∧
    countDispatchL (handleLocalFlag cascadeTarget (.statError "EACCES") .err (some 2)) = 0 ∧
    handleLocalFlag cascadeTarget (.ok 9) .err (some 2) =
      [.setLast 9, .dispatch cascadeTarget.agent ""] ∧
    countLogL (handleLocalFlag cascadeTarget (.ok 9) .err (some 2)) = 0) :=
  ⟨by decide, local_error_isolation cascadeTarget .err (some 2) "EACCES" 9 (by decide)⟩

/-- C8: the composed prompt starts with the originating agent's name,
and the context clause is appended exactly when the context text is
non-empty, in which case the prompt ends with that context text; an
empty context omits the clause entirely. -/
theorem prompt_embeds_agent_and_context (a c : String) :
    triggerNotificationPrompt a c =
      a ++ (" has a message for you. Check .ai/dialogue.json and .handoff/collab.json, then respond to continue the conversation." ++
        (if c = "" then "" else " Context: " ++ c)) := by
  by_cases h : c = ""
  · simp only [triggerNotificationPrompt, h, if_pos]
    rw [String.append_empty]
  · simp only [triggerNotificationPrompt, if_neg h]
    have hsplit : (" has a message for you. Check .ai/dialogue.json and .handoff/collab.json, then respond to continue the conversation." : String) ++ " Context: " =
        " has a message for you. Check .ai/dialogue.json and .handoff/collab.json, then respond to continue the conversation. Context: " := by
      decide
    rw [String.append_assoc, ← hsplit, String.append_assoc]

/-- Unfolding of a remote poll step on a successful fetch. -/
theorem pollGitHubStep_some_eq (target : Target) (prev : Option String) (r : FileData) :
    pollGitHubStep target prev (some r) =
      if prev = some r.sha then []
      else if jsFalsyStr prev then [.setSha r.sha, .track target.name r.sha]
      else [.setSha r.sha, .logNew target.name, .dispatch target.agent r.content] := rfl

/-- C2 counterexample: when the recorded baseline fingerprint is the
empty string, the next successfully fetched fingerprint differs from
it yet produces zero notifications, because `!prevSha` treats the
empty string like the absence of a record. -/
theorem remote_empty_fingerprint_suppresses_change :
    ("" : String) ≠ "def456" ∧
    countDispatchG ((pollRun cascadeTarget none
      [some ⟨"", "a"⟩, some ⟨"def456", "pong"⟩]).2) = 0 := by
  decide

/-- C2 amended: the first fingerprint observed after process start is
recorded as a baseline and never dispatches; provided the recorded
baseline fingerprint is a non-empty string, the first successfully
fetched fingerprint that differs from it dispatches exactly once, with
the fetched content as the notification's context. -/
theorem remote_baseline_then_change (target : Target) (r0 r : FileData)
    (h0 : r0.sha ≠ "") (hne : r0.sha ≠ r.sha) :
    (∀ r1 : FileData, countDispatchG (pollGitHubStep target none (some r1)) = 0) ∧
    applyG none (pollGitHubStep target none (some r0)) = some r0.sha ∧
    pollGitHubStep target (some r0.sha) (some r) =
      [.setSha r.sha, .logNew target.name, .dispatch target.agent r.content] ∧
    countDispatchG (pollGitHubStep target (some r0.sha) (some r)) = 1 ∧
    dispatchContextsG (pollGitHubStep target (some r0.sha) (some r)) = [r.content] := by
  have hstep : pollGitHubStep target (some r0.sha) (some r) =
      [.setSha r.sha, .logNew target.name, .dispatch target.agent r.content] := by
    rw [pollGitHubStep_some_eq, if_neg (by simpa using hne),
      if_neg (by simpa [jsFalsyStr] using h0)]
  refine ⟨?_, ?_, hstep, ?_, ?_⟩
  · intro r1
    rfl
  · rfl
  · rw [hstep]
    rfl
  · rw [hstep]
    rfl

/-- C2 witness at a concrete input. -/
theorem remote_baseline_then_change_witness :
    ("abc123" : String) ≠ "" ∧ ("abc123" : String) ≠ "def456" ∧
    ((∀ r1 : FileData, countDispatchG (pollGitHubStep cascadeTarget none (some r1)) = 0) ∧
    applyG none (pollGitHubStep cascadeTarget none (some ⟨"abc123", ""⟩)) = some "abc123" ∧
    pollGitHubStep cascadeTarget (some "abc123") (some ⟨"def456", "pong"⟩) =
      [.setSha "def456", .logNew cascadeTarget.name,
        .dispatch cascadeTarget.agent "pong"] ∧
    countDispatchG (pollGitHubStep cascadeTarget (some "abc123")
      (some ⟨"def456", "pong"⟩)) = 1 ∧
    dispatchContextsG (pollGitHubStep cascadeTarget (some "abc123")
      (some ⟨"def456", "pong"⟩)) = ["pong"]) :=
  ⟨by decide, by decide,
    remote_baseline_then_change cascadeTarget ⟨"abc123", ""⟩ ⟨"def456", "pong"⟩
      (by decide) (by decide)⟩

/-- A failed fetch tick contributes nothing to the run. -/
theorem pollRun_replicate_none (target : Target) (prev : Option String) (n : Nat) :
    pollRun target prev (List.replicate n none) = (prev, []) := by
  induction n with
  | zero => rfl
  | succ n ih =>
    show pollRun target prev (none :: List.replicate n none) = (prev, [])
    simp only [pollRun, pollGitHubStep, applyG, List.nil_append]
    exact ih

/-- C3: a failed fetch leaves the stored fingerprint unchanged and
produces no actions at all; after any run of failed ticks the next
successful fetch is processed exactly as it would have been before the
failures, against the pre-failure fingerprint; in particular a
fingerprint first seen after a run of failed ticks with no prior
record is a baseline and dispatches nothing. -/
theorem remote_failed_fetch_skipped (target : Target) (prev : Option String)
    (n : Nat) (r : FileData) :
    pollGitHubStep target prev none = [] ∧
    pollRun target prev (List.replicate n none) = (prev, []) ∧
    pollRun target prev (List.replicate n none ++ [some r]) =
      (applyG prev (pollGitHubStep target prev (some r)),
        pollGitHubStep target prev (some r)) ∧
    countDispatchG ((pollRun target none (List.replicate n none ++ [some r])).2) = 0 := by
  have hrun : ∀ s : Option String,
      pollRun target s (List.replicate n none ++ [some r]) =
        (applyG s (pollGitHubStep target s (some r)), pollGitHubStep target s (some r)) := by
    intro s
    induction n with
    | zero =>
      show pollRun target s [some r] = _
      simp [pollRun]
    | succ k ih =>
      show pollRun target s (none :: (List.replicate k none ++ [some r])) = _
      simp only [pollRun, pollGitHubStep, applyG, List.nil_append]
      exact ih
  refine ⟨rfl, pollRun_replicate_none target prev n, hrun prev, ?_⟩
  rw [hrun none]
  rfl

/-- C9: whenever a remote poll step dispatches, the trace overwrites
the stored fingerprint with the fetched one strictly before the
dispatch; re-running the step on the updated store with the same fetch
result dispatches nothing; and after any successful fetch the stored
fingerprint equals the fetched one, whatever the prior store was. -/
theorem remote_update_before_dispatch (target : Target) (prev : Option String)
    (res : Option FileData)
    (h : 0 < countDispatchG (pollGitHubStep target prev res)) :
    (∃ r, res = some r ∧
      pollGitHubStep target prev res =
        [.setSha r.sha, .logNew target.name, .dispatch target.agent r.content]) ∧
    countDispatchG (pollGitHubStep target
      (applyG prev (pollGitHubStep target prev res)) res) = 0 ∧
    (∀ (s : Option String) (r : FileData),
      applyG s (pollGitHubStep target s (some r)) = some r.sha) := by
  have hinv : ∀ (s : Option String) (r : FileData),
      applyG s (pollGitHubStep target s (some r)) = some r.sha := by
    intro s r
    rw [pollGitHubStep_some_eq]
    by_cases hs : s = some r.sha
    · rw [if_pos hs]
      exact hs
    · rw [if_neg hs]
      by_cases hf : jsFalsyStr s = true
      · rw [if_pos hf]
        rfl
      · rw [if_neg hf]
        rfl
  cases res with
  | none => simp [pollGitHubStep, countDispatchG] at h
  | some r =>
    by_cases hs : prev = some r.sha
    · rw [pollGitHubStep_some_eq, if_pos hs] at h
      simp [countDispatchG] at h
    · by_cases hf : jsFalsyStr prev = true
      · rw [pollGitHubStep_some_eq, if_neg hs, if_pos hf] at h
        simp [countDispatchG, GAction.isDispatch] at h
      · have hstep : pollGitHubStep target prev (some r) =
            [.setSha r.sha, .logNew target.name, .dispatch target.agent r.content] := by
          rw [pollGitHubStep_some_eq, if_neg hs, if_neg hf]
        refine ⟨⟨r, rfl, hstep⟩, ?_, hinv⟩
        rw [hinv prev r]
        simp [pollGitHubStep_some_eq, countDispatchG]

/-- C9 witness at a concrete input. -/
theorem remote_update_before_dispatch_witness :
    0 < countDispatchG (pollGitHubStep cascadeTarget (some "aaa")
      (some ⟨"bbb", "ctx"⟩)) ∧
    ((∃ r, (some ⟨"bbb", "ctx"⟩ : Option FileData) = some r ∧
      pollGitHubStep cascadeTarget (some "aaa") (some ⟨"bbb", "ctx"⟩) =
        [.setSha r.sha, .logNew cascadeTarget.name,
          .dispatch cascadeTarget.agent r.content]) ∧
    countDispatchG (pollGitHubStep cascadeTarget
      (applyG (some "aaa") (pollGitHubStep cascadeTarget (some "aaa")
        (some ⟨"bbb", "ctx"⟩))) (some ⟨"bbb", "ctx"⟩)) = 0 ∧
    (∀ (s : Option String) (r : FileData),
      applyG s (pollGitHubStep cascadeTarget s (some r)) = some r.sha)) :=
  ⟨by decide, remote_update_before_dispatch cascadeTarget (some "aaa")
    (some ⟨"bbb", "ctx"⟩) (by decide)⟩

/-- C10: the fetch is total at its interface: a thrown error or a
non-ok response yields `null`, an ok response yields the sha and a
string content, which is the empty string when the body's `content`
field is absent (so the composed prompt then omits the context clause)
and the base64-decoded, trimmed text when it is present. -/
theorem fetchGitHubFile_interface (sha c a : String) (oc : Option String) :
    fetchGitHubFile .fetchFailed = none ∧
    fetchGitHubFile (.response false sha oc) = none ∧
    fetchGitHubFile (.response true sha none) = some ⟨sha, ""⟩ ∧
    fetchGitHubFile (.response true sha (some c)) = some ⟨sha, (base64Decode c).trim⟩ ∧
    (∀ o : FetchOutcome, fetchGitHubFile o = none ∨
      ∃ s2 oc2, o = FetchOutcome.response true s2 oc2) ∧
    triggerNotificationPrompt a "" =
      a ++ " has a message for you. Check .ai/dialogue.json and .handoff/collab.json, then respond to continue the conversation." := by
  refine ⟨rfl, rfl, rfl, rfl, ?_, ?_⟩
  · intro o
    cases o with
    | fetchFailed => exact Or.inl rfl
    | response ok s2 oc2 =>
      cases ok with
      | false => exact Or.inl rfl
      | true => exact Or.inr ⟨s2, oc2, rfl⟩
  · simp [triggerNotificationPrompt]

/-- With strictly increasing event times, each within `debounceMs` of
its predecessor, every timer but the last event's is cancelled by the
following event, and the last one fires: the cancel-and-reschedule
debounce coalesces the burst into the single check scheduled by the
last event. -/
theorem firedChecks_eq_getLast : ∀ (ts : List Nat) (hne : ts ≠ []),
    List.Chain' (fun a b => a < b ∧ b < a + debounceMs) ts →
    firedChecks ts = [ts.getLast hne] := by
  intro ts
  induction ts with
  | nil => intro hne _; exact absurd rfl hne
  | cons a rest ih =>
    intro hne hchain
    cases rest with
    | nil => simp [firedChecks, cancelledBy]
    | cons b l =>
      have hab : a < b ∧ b < a + debounceMs := (List.chain'_cons.mp hchain).1
      have htail : List.Chain' (fun x y => x < y ∧ y < x + debounceMs) (b :: l) :=
        (List.chain'_cons.mp hchain).2
      have hlt : List.Pairwise (· < ·) (a :: b :: l) :=
        List.chain'_iff_pairwise.mp
          (List.Chain'.imp (fun x y (hxy : x < y ∧ y < x + debounceMs) => hxy.1) hchain)
      have ha_lt : ∀ u ∈ b :: l, a < u := (List.pairwise_cons.mp hlt).1
      have hca : cancelledBy (a :: b :: l) a = true := by
        simp only [cancelledBy, List.any_eq_true]
        refine ⟨b, by simp, ?_⟩
        simp [hab.1, hab.2]
      have hcongr : ∀ u ∈ b :: l,
          (!cancelledBy (a :: b :: l) u) = (!cancelledBy (b :: l) u) := by
        intro u hu
        have hua : ¬ u < a := Nat.lt_asymm (ha_lt u hu)
        simp [cancelledBy, List.any_cons, hua]
      calc firedChecks (a :: b :: l)
          = List.filter (fun t => !cancelledBy (a :: b :: l) t) (b :: l) := by
            simp only [firedChecks, List.filter_cons, hca]
            simp
        _ = firedChecks (b :: l) := List.filter_congr hcongr
        _ = [(b :: l).getLast (List.cons_ne_nil b l)] := ih (List.cons_ne_nil b l) htail
        _ = [(a :: b :: l).getLast hne] :=
            congrArg (fun x => [x]) (List.getLast_cons (List.cons_ne_nil b l)).symm

/-- C5: N file events within the debounce window leave exactly one
fired check, the one scheduled by the last event; that check, run
against the file state after the last event (modification time m above
the stored timestamp, content c), dispatches exactly one notification
whose context is the trimmed final content. -/
theorem debounce_coalesces_burst (target : Target) (ts : List Nat) (m : Nat)
    (c : String) (prev : Option Nat) (hne : ts ≠ [])
    (hchain : List.Chain' (fun a b => a < b ∧ b < a + debounceMs) ts)
    (hm : prev.getD 0 < m) :
    firedChecks ts = [ts.getLast hne] ∧
    countDispatchL (handleLocalFlag target (.ok m) (.ok c) prev) = 1 ∧
    dispatchContextsL (handleLocalFlag target (.ok m) (.ok c) prev) = [c.trim] := by
  refine ⟨firedChecks_eq_getLast ts hne hchain, ?_, ?_⟩
  · rw [handleLocalFlag_ok_eq, if_neg (by omega)]
    rfl
  · rw [handleLocalFlag_ok_eq, if_neg (by omega)]
    rfl

/-- C5 witness at a concrete input. -/
theorem debounce_coalesces_burst_witness :
    ([0, 100, 200] : List Nat) ≠ [] ∧
    List.Chain' (fun a b => a < b ∧ b < a + debounceMs) [0, 100, 200] ∧
    (none : Option Nat).getD 0 < 5 ∧
    (firedChecks [0, 100, 200] = [([0, 100, 200] : List Nat).getLast (by decide)] ∧
    countDispatchL (handleLocalFlag cascadeTarget (.ok 5) (.ok " ping ") none) = 1 ∧
    dispatchContextsL (handleLocalFlag cascadeTarget (.ok 5) (.ok " ping ") none) =
      [(" ping " : String).trim]) :=
  have hch : List.Chain' (fun a b => a < b ∧ b < a + debounceMs) [0, 100, 200] :=
    List.chain'_cons.mpr ⟨⟨by decide, by decide⟩,
      List.chain'_cons.mpr ⟨⟨by decide, by decide⟩, List.chain'_singleton 200⟩⟩
  ⟨by decide, hch, by decide,
    debounce_coalesces_burst cascadeTarget [0, 100, 200] 5 " ping " none
      (by decide) hch (by decide)⟩
